import Mathlib

/-!
Verification of the forest-bd-viewer backend (Go) against its design
specification.

The Go sources are shallowly embedded: pure fragments become Lean functions
over `ℚ` (for `float32`/`float64` values), `ℤ` (for `int`), `List` (for
slices) and `String`.  IEEE floats are modelled as exact rationals plus an
explicit NaN constructor; float infinities are not modelled (no claim under
verification distinguishes them).  Stateful fragments (the Redis-backed tile
cache, the HTTP handlers, the LiDAR pipeline's external calls) are modelled
as explicit state-passing functions that also return the trace of effects
(database queries issued, WFS queries issued, raster downloads dispatched).
Concurrency (the tile cache's behaviour under simultaneous requests) is
modelled as a small interleaving state machine driven by an explicit
schedule.

Each embedded definition names the Go function it is translated from.
-/

/-! ## Embedded definitions -/

/-- Opaque byte strings (`[]byte` in Go); the bytes themselves never matter,
only emptiness and equality. -/
abbrev Bytes := List ℕ

/-- A `[4]float64` bounding box, indexed `b0..b3` like the Go array. -/
structure BBox4 where
  b0 : ℚ
  b1 : ℚ
  b2 : ℚ
  b3 : ℚ
deriving DecidableEq, Repr

/-- A `float32` value: either NaN or an exact finite value modelled as a
rational.  Infinities are not modelled; no embedded code path under
verification produces or branches on them. -/
inductive F32 where
  | nan : F32
  | val : ℚ → F32
deriving DecidableEq, Repr

/-- Go `==` on `float32`: NaN compares unequal to everything (itself
included); finite values compare exactly. -/
def F32.beq : F32 → F32 → Bool
  | .val a, .val b => decide (a = b)
  | _, _ => false

/-- `math.IsNaN` on the modelled value. -/
def F32.isNaN : F32 → Bool
  | .nan => true
  | .val _ => false

/-- `float32` subtraction: NaN propagates, finite values subtract exactly. -/
def F32.sub : F32 → F32 → F32
  | .val a, .val b => .val (a - b)
  | _, _ => .nan

/-- The clamp `if height < 0 { height = 0 }` from `computeCHM`
(`internal/geo/admin.go`). -/
def F32.clampNeg : F32 → F32
  | .val a => if a < 0 then .val 0 else .val a
  | .nan => .nan

/-- The `Raster` struct from `internal/geo/geotiff.go`: a `Width × Height`
grid of `float32` values in row-major order, an optional nodata sentinel, a
native-CRS bounding box and an EPSG code. -/
structure Raster where
  Width : ℕ
  Height : ℕ
  Data : List F32
  NoData : F32
  HasNoData : Bool
  BBox : BBox4
  EPSG : ℤ

/-- The CHM output nodata sentinel `-9999` (`computeCHM`,
`internal/geo/admin.go`). -/
def chmNoData : F32 := .val (-9999)

/-- The branch structure of `computeCHM`'s loop body
(`internal/geo/admin.go`): emit the nodata sentinel when either input equals
its raster's nodata value (Go `==` on `float32`) or is NaN, else emit the
clamped difference.  `hn1`/`nd1` are the MNS raster's `HasNoData`/`NoData`
fields, `hn2`/`nd2` the MNT raster's, `mv`/`tv` the two input pixels. -/
def chmCore (hn1 : Bool) (nd1 : F32) (hn2 : Bool) (nd2 : F32) (mv tv : F32) : F32 :=
  if (hn1 && F32.beq mv nd1) || (hn2 && F32.beq tv nd2) then
    chmNoData
  else if mv.isNaN || tv.isNaN then
    chmNoData
  else
    F32.clampNeg (F32.sub mv tv)

/-- One output pixel of `computeCHM` (`internal/geo/admin.go`): at linear
index `i` of the `w`-wide output, read `mns.Data[y*mns.Width+x]` and
`mnt.Data[y*mnt.Width+x]` and apply the loop body.  Go's in-range slice
indexing is modelled with `getD`; under the raster invariant
`len(Data) = Width*Height` the default is never read. -/
def chmPixel (mns mnt : Raster) (w : ℕ) (i : ℕ) : F32 :=
  let y := i / w
  let x := i % w
  chmCore mns.HasNoData mns.NoData mnt.HasNoData mnt.NoData
    (mns.Data.getD (y * mns.Width + x) (.val 0))
    (mnt.Data.getD (y * mnt.Width + x) (.val 0))

/-- `computeCHM` (`internal/geo/admin.go`): output dimensions are the
pairwise minima, every output pixel is `chmPixel`, the nodata sentinel is
`-9999` with `HasNoData = true`, and `BBox`/`EPSG` are copied from the MNS
argument. -/
def computeCHM (mns mnt : Raster) : Raster :=
  let w := min mns.Width mnt.Width
  let h := min mns.Height mnt.Height
  { Width := w
    Height := h
    Data := (List.range (w * h)).map (chmPixel mns mnt w)
    NoData := chmNoData
    HasNoData := true
    BBox := mns.BBox
    EPSG := mns.EPSG }

/-- The geo-referencing step of `parseIFD` (`internal/geo/geotiff.go`,
the `ModelPixelScaleTag + ModelTiepointTag → BBox` block): `scales` and
`tiepoints` are the parsed `float64` arrays of the two tags; when both are
long enough the bbox is assembled from the affine formulas, otherwise the
raster keeps the Go zero-value bbox. -/
def rasterGeoBBox (width height : ℕ) (scales tiepoints : List ℚ) : BBox4 :=
  if 2 ≤ scales.length ∧ 6 ≤ tiepoints.length then
    let scaleX := scales.getD 0 0
    let scaleY := scales.getD 1 0
    let tieI := tiepoints.getD 0 0
    let tieJ := tiepoints.getD 1 0
    let tieX := tiepoints.getD 3 0
    let tieY := tiepoints.getD 4 0
    let xMin := tieX - tieI * scaleX
    let yMax := tieY + tieJ * scaleY
    let xMax := xMin + (width : ℚ) * scaleX
    let yMin := yMax - (height : ℚ) * scaleY
    ⟨xMin, yMin, xMax, yMax⟩
  else ⟨0, 0, 0, 0⟩

/-- `isValidWGS84` (`internal/geo/admin.go`): all four coordinates within
the global WGS84 longitude/latitude ranges. -/
def isValidWGS84 (b : BBox4) : Prop :=
  -180 ≤ b.b0 ∧ b.b0 ≤ 180 ∧ -90 ≤ b.b1 ∧ b.b1 ≤ 90 ∧
  -180 ≤ b.b2 ∧ b.b2 ≤ 180 ∧ -90 ≤ b.b3 ∧ b.b3 ≤ 90

instance (b : BBox4) : Decidable (isValidWGS84 b) := by
  unfold isValidWGS84
  infer_instance

/-- `looksLikeLambert93` (`internal/geo/admin.go`): the coordinate ranges
are consistent with EPSG:2154 easting/northing for metropolitan France. -/
def looksLikeLambert93 (b : BBox4) : Prop :=
  50000 < b.b0 ∧ b.b0 < 1400000 ∧ 5500000 < b.b1 ∧ b.b1 < 7500000 ∧
  50000 < b.b2 ∧ b.b2 < 1400000 ∧ 5500000 < b.b3 ∧ b.b3 < 7500000

instance (b : BBox4) : Decidable (looksLikeLambert93 b) := by
  unfold looksLikeLambert93
  infer_instance

/-- `lambert93ToLon` (`internal/geo/admin.go`).  The transcendental factor
`cos(46.5°)` is abstracted as the parameter `cos465` (the Go code computes
it with `math.Cos`); every theorem below holds for an arbitrary value of
this parameter. -/
def lambert93ToLon (cos465 x y : ℚ) : ℚ :=
  3 + (x - 700000) / (cos465 * 111320)

/-- `lambert93ToLat` (`internal/geo/admin.go`). -/
def lambert93ToLat (x y : ℚ) : ℚ :=
  46.5 + (y - 6600000) / 110540

/-- `estimateWGS84Bounds` (`internal/geo/admin.go`): EPSG:4326 passes
through, EPSG:2154 (or EPSG 0 with Lambert-93-looking ranges) gets the
closed-form affine conversion, anything else is returned as-is. -/
def estimateWGS84Bounds (cos465 : ℚ) (bbox : BBox4) (epsg : ℤ) : BBox4 :=
  if epsg = 4326 then bbox
  else if epsg = 2154 ∨ (epsg = 0 ∧ looksLikeLambert93 bbox) then
    { b0 := lambert93ToLon cos465 bbox.b0 bbox.b1
      b1 := lambert93ToLat bbox.b0 bbox.b1
      b2 := lambert93ToLon cos465 bbox.b2 bbox.b3
      b3 := lambert93ToLat bbox.b2 bbox.b3 }
  else bbox

/-- The bounds step of `AnalyzeLidar` (`internal/geo/admin.go`): convert
the merged mosaic bbox, then fall back to the input polygon's own bbox when
the conversion result is not valid WGS84.  The fallback itself is not
re-validated. -/
def finalLidarBounds (cos465 : ℚ) (merged : BBox4) (epsg : ℤ) (poly : BBox4) : BBox4 :=
  let b := estimateWGS84Bounds cos465 merged epsg
  if isValidWGS84 b then b else poly

/-- `math.Round`: round half away from zero, as Go's `math.Round` does. -/
def goRound (q : ℚ) : ℤ :=
  if q < 0 then -⌊-q + 1/2⌋ else ⌊q + 1/2⌋

/-- The rounding `math.Round(x*100)/100` applied to each statistic when
`AnalyzeLidar` builds its `LidarResult`. -/
def round2 (q : ℚ) : ℚ :=
  (goRound (q * 100) : ℚ) / 100

/-- `canopyThreshold = 2.0` (`AnalyzeLidar`, `internal/geo/admin.go`). -/
def canopyThreshold : ℚ := 2

/-- The four height statistics of a `LidarResult`. -/
structure CanopyStats where
  MinHeight : ℚ
  MaxHeight : ℚ
  MeanHeight : ℚ
  MedianHeight : ℚ
deriving DecidableEq, Repr

/-- The statistics step of `AnalyzeLidar` (`internal/geo/admin.go`): keep
values `≥ 2.0`, return `none` when nothing survives (the "no canopy
detected" early return), else sort ascending and report
min = first element, max = last element, mean = sum/count,
median = element at index `len/2`, each rounded to 2 decimals. -/
def canopyStats (allCHM : List ℚ) : Option CanopyStats :=
  let canopyVals := allCHM.filter (fun v => canopyThreshold ≤ v)
  if canopyVals.isEmpty then none
  else
    let sorted := List.insertionSort (· ≤ ·) canopyVals
    let n := sorted.length
    let minH := sorted.getD 0 0
    let maxH := sorted.getD (n - 1) 0
    let sum := sorted.foldl (· + ·) 0
    let meanH := sum / (n : ℚ)
    let medianH := sorted.getD (n / 2) 0
    some
      { MinHeight := round2 minH
        MaxHeight := round2 maxH
        MeanHeight := round2 meanH
        MedianHeight := round2 medianH }

/-- Modelled from the spec's words ("median (sorted-array, lower-median on
even counts)"): the lower median of an ascending-sorted list is the element
at index `(n−1)/2` — the middle element for odd `n`, the lower of the two
central elements for even `n`.  Stated only to be compared against the
code's behaviour. -/
def lowerMedianOfSorted (sorted : List ℚ) : ℚ :=
  sorted.getD ((sorted.length - 1) / 2) 0

/-- A tile record from the IGN WFS tile index (`WFSTile`,
`internal/geo/admin.go`); only the fields the control flow under
verification reads (`Name` for grid-key pairing, `NameDownload` for the
download/disk-cache identity) are modelled. -/
structure WFSTile where
  Name : String
  NameDownload : String
deriving DecidableEq, Repr

/-- `maxLidarTiles = 25` (`internal/geo/admin.go`). -/
def maxLidarTiles : ℕ := 25

/-- `tileGridKey` (`internal/geo/admin.go`): fields 3 and 4 of the
underscore-separated tile name, or `""` when the name has fewer than 5
fields. -/
def tileGridKey (name : String) : String :=
  let parts := name.splitOn "_"
  if parts.length < 5 then ""
  else parts.getD 2 "" ++ "_" ++ parts.getD 3 ""

/-- `matchTilePairs` (`internal/geo/admin.go`): index the MNT tiles by grid
key (later tiles overwrite earlier ones, as Go map insertion does — modelled
by prepending and taking the first match), then pair each MNS tile with the
MNT tile of equal grid key, dropping unpaired tiles and tiles with empty
keys, preserving MNS order. -/
def matchTilePairs (mns mnt : List WFSTile) : List WFSTile × List WFSTile :=
  let mntMap := mnt.foldl (fun m t =>
    let k := tileGridKey t.Name
    if k = "" then m else (k, t) :: m) ([] : List (String × WFSTile))
  mns.foldl (fun acc t =>
    let k := tileGridKey t.Name
    if k = "" then acc
    else
      match (mntMap.find? (fun p => p.1 = k)).map Prod.snd with
      | some mt => (acc.1 ++ [t], acc.2 ++ [mt])
      | none => acc) (([], []) : List WFSTile × List WFSTile)

/-- Externally observable actions of the `AnalyzeLidar` index phase. -/
inductive LidarEffect where
  | wfsQuery (typeName : String)
  | download (nameDownload : String)
deriving DecidableEq, Repr

/-- The early-exit result record (`LidarResult`'s coverage fields). -/
structure LidarEarly where
  HasCoverage : Bool
  Message : String
deriving DecidableEq, Repr

/-- The "no coverage" message (`AnalyzeLidar`, `internal/geo/admin.go`). -/
def noCoverageMsg : String :=
  "No LIDAR HD coverage available for this area. LIDAR HD data is being progressively published by IGN and does not yet cover all of France."

/-- The "area too large" message (`AnalyzeLidar`, `internal/geo/admin.go`),
with the tile count and the cap interpolated as in the Go `fmt.Sprintf`. -/
def tooLargeMsg (n : ℕ) : String :=
  "Area too large: " ++ toString n ++ " LIDAR tiles required (max " ++
    toString maxLidarTiles ++ "). Please draw a smaller polygon."

/-- The "MNT missing" message (`AnalyzeLidar`, `internal/geo/admin.go`). -/
def mntMissingMsg : String :=
  "LIDAR HD MNS tiles found but matching MNT tiles are missing."

/-- The MNS tile index layer name (`AnalyzeLidar`). -/
def mnsTypeName : String := "IGNF_MNS-LIDAR-HD:dalle"

/-- The MNT tile index layer name (`AnalyzeLidar`). -/
def mntTypeName : String := "IGNF_MNT-LIDAR-HD:dalle"

/-- The index phase of `AnalyzeLidar` (`internal/geo/admin.go`), with its
outbound effects traced in order.  `mns`/`mnt` are the tile lists the two
WFS queries would return.  The result is `some` of an early-exit record
(empty index, too many tiles, no pairs) or `none` when the pipeline
proceeds to download and CHM computation; the MNT index query runs only
after the cap check passes, and the per-pair MNS/MNT fetch tasks are
dispatched only after pairing succeeds. -/
def analyzeLidarIndexPhase (mns mnt : List WFSTile) :
    Option LidarEarly × List LidarEffect :=
  let e1 : List LidarEffect := [.wfsQuery mnsTypeName]
  if mns.length = 0 then
    (some { HasCoverage := false, Message := noCoverageMsg }, e1)
  else if maxLidarTiles < mns.length then
    (some { HasCoverage := false, Message := tooLargeMsg mns.length }, e1)
  else
    let e2 := e1 ++ [.wfsQuery mntTypeName]
    let pairs := matchTilePairs mns mnt
    if pairs.1.length = 0 then
      (some { HasCoverage := false, Message := mntMissingMsg }, e2)
    else
      (none, e2 ++ (pairs.1.zip pairs.2).foldl (fun es pr =>
        es ++ [.download pr.1.NameDownload, .download pr.2.NameDownload]) [])

/-- One Redis entry: a byte value written at `storedAt` with expiry `ttl`
(time is an abstract discrete clock). -/
structure CacheEntry where
  value : Bytes
  storedAt : ℕ
  ttl : ℕ
deriving DecidableEq, Repr

/-- The Redis key space: an association list, newest write first. -/
structure CacheState where
  entries : List (String × CacheEntry)
deriving DecidableEq, Repr

/-- Latest entry stored under `key` (newest-first list, first match wins,
like the overwrite semantics of `SET`). -/
def cacheLookup (es : List (String × CacheEntry)) (key : String) : Option CacheEntry :=
  (es.find? (fun p => p.1 = key)).map Prod.snd

/-- `GET key`: the stored bytes, or `none` (Redis `Nil`) when the key is
absent or its TTL has elapsed. -/
def cacheGet (s : CacheState) (now : ℕ) (key : String) : Option Bytes :=
  match cacheLookup s.entries key with
  | some e => if now < e.storedAt + e.ttl then some e.value else none
  | none => none

/-- `SET key v EX ttl` at time `now`. -/
def cacheSet (s : CacheState) (now : ℕ) (key : String) (v : Bytes) (ttl : ℕ) :
    CacheState :=
  ⟨(key, ⟨v, now, ttl⟩) :: s.entries⟩

/-- The result of the `fetch` closure (`[]byte, error` in Go): `ok none`
models a nil slice, `ok (some b)` a concrete slice, `err` a non-nil
error. -/
inductive FetchResult where
  | ok (tile : Option Bytes)
  | err
deriving DecidableEq, Repr

/-- The `tileCacheTTL = 24h` constant (`internal/tiles/handler.go`),
in seconds. -/
def tileCacheTTL : ℕ := 24 * 3600

/-- The `adminTileCacheTTL = 7 * 24h` constant
(`internal/tiles/handler.go`), in seconds. -/
def adminTileCacheTTL : ℕ := 7 * 24 * 3600

/-- What one `serveTile` call produced: the HTTP status, the body, whether
the `fetch` closure was invoked, and the cache afterwards. -/
structure ServeOutcome where
  status : ℕ
  body : Bytes
  fetched : Bool
  cache : CacheState
deriving DecidableEq, Repr

/-- `serveTile` (`internal/tiles/handler.go`): on a cache hit return the
stored bytes (204 when empty, 200 otherwise) without fetching; on a miss
invoke `fetch`, map an error to a 500, otherwise store the bytes (a nil
slice as an empty byte string) under the key with the given TTL and respond
204/200 by emptiness.  The Go code issues the `SET` on a background context
ignoring errors; the model performs it synchronously and successfully. -/
def serveTile (cache : CacheState) (now : ℕ) (key : String) (ttl : ℕ)
    (fetch : FetchResult) : ServeOutcome :=
  match cacheGet cache now key with
  | some cached =>
    if cached.length = 0 then ⟨204, [], false, cache⟩
    else ⟨200, cached, false, cache⟩
  | none =>
    match fetch with
    | .err => ⟨500, [], true, cache⟩
    | .ok tile =>
      let storeBytes := tile.getD []
      let cache1 := cacheSet cache now key storeBytes ttl
      if (tile.getD []).length = 0 then ⟨204, [], true, cache1⟩
      else ⟨200, tile.getD [], true, cache1⟩

/-- `validAdminLayers` (`internal/geo/admin.go`): the closed admin layer
allow-list. -/
def validAdminLayers : List String := ["regions", "departements", "communes"]

/-- `layerFields` (`internal/geo/admin.go`). -/
def layerFields (layer : String) : String :=
  if layer = "regions" then "id, code, nom"
  else if layer = "departements" then "id, code, nom, region_code"
  else if layer = "communes" then "id, code, nom, departement_code, region_code"
  else "id"

/-- The string-interpolated admin tile SQL (`internal/geo/admin.go`,
`AdminTile`), with the layer name substituted in the three interpolation
points of the Go `fmt.Sprintf` (whitespace condensed). -/
def adminQuerySQL (layer : String) : String :=
  "SELECT ST_AsMVT(q, '" ++ layer ++ "', 4096, 'geom') FROM (SELECT " ++
    layerFields layer ++
    ", ST_AsMVTGeom(ST_Transform(geom, 3857), ST_TileEnvelope($1, $2, $3), 4096, 256, true) AS geom FROM " ++
    layer ++
    " WHERE geom && ST_Transform(ST_TileEnvelope($1, $2, $3), 4326)) q WHERE geom IS NOT NULL"

/-- `geo.AdminTile` (`internal/geo/admin.go`): reject a layer outside the
allow-list, then invalid coordinates, before any SQL string is built; only
then build the interpolated query and send it to the database.  `db` maps a
query string to the database's answer; the second component is the list of
SQL strings that reached the database. -/
def geoAdminTile (db : String → Except Unit (Option Bytes)) (layer : String)
    (z x y : ℤ) : FetchResult × List String :=
  if layer ∉ validAdminLayers then (.err, [])
  else if z < 0 ∨ 22 < z ∨ x < 0 ∨ y < 0 then (.err, [])
  else
    match db (adminQuerySQL layer) with
    | .error _ => (.err, [adminQuerySQL layer])
    | .ok tile => (.ok tile, [adminQuerySQL layer])

/-- Go `strconv.Atoi` digit parsing on the character list (no overflow
modelled; the coordinates in scope are small). -/
def digitsVal? (cs : List Char) : Option ℕ :=
  if cs = [] then none
  else cs.foldl (fun acc c =>
    match acc with
    | none => none
    | some n => if c.isDigit then some (n * 10 + (c.toNat - 48)) else none)
    (some 0)

/-- `strconv.Atoi`: optional sign, then decimal digits. -/
def atoi? (s : String) : Option ℤ :=
  match s.toList with
  | '+' :: rest => (digitsVal? rest).map (fun n => (n : ℤ))
  | '-' :: rest => (digitsVal? rest).map (fun n => -(n : ℤ))
  | cs => (digitsVal? cs).map (fun n => (n : ℤ))

/-- The `.mvt` suffix strip of `parseTileParams`
(`internal/tiles/handler.go`): only when the raw value is strictly longer
than 4 characters and ends in `.mvt`. -/
def stripMVT (yRaw : String) : String :=
  if 4 < yRaw.length ∧ yRaw.takeRight 4 = ".mvt" then yRaw.dropRight 4 else yRaw

/-- `parseTileParams` (`internal/tiles/handler.go`): parse `z`, `x`, `y`
(after suffix strip), then range-check `0 ≤ z ≤ 22`, `0 ≤ x`, `0 ≤ y`; any
failure is reported as one error (the handler turns it into a 400). -/
def parseTileParams (zs xs ys : String) : Option (ℤ × ℤ × ℤ) :=
  match atoi? zs with
  | none => none
  | some z =>
    match atoi? xs with
    | none => none
    | some x =>
      match atoi? (stripMVT ys) with
      | none => none
      | some y =>
        if z < 0 ∨ 22 < z ∨ x < 0 ∨ y < 0 then none
        else some (z, x, y)

/-- The admin tile cache key `tile:admin:<layer>:<z>:<x>:<y>`
(`internal/tiles/handler.go`, `AdminTile`). -/
def adminCacheKey (layer : String) (z x y : ℤ) : String :=
  "tile:admin:" ++ layer ++ ":" ++ toString z ++ ":" ++ toString x ++ ":" ++
    toString y

/-- What one request to the admin tile endpoint produced: HTTP status,
body, the SQL queries that reached the database, and the cache
afterwards. -/
structure HttpOutcome where
  status : ℕ
  body : Bytes
  dbQueries : List String
  cache : CacheState
deriving DecidableEq, Repr

/-- The `AdminTile` HTTP handler (`internal/tiles/handler.go`): 400 on
coordinate parse failure, else `serveTile` over the admin cache key with
`geo.AdminTile` as the fetch closure (so the database is consulted only on
a cache miss, and a fetch error surfaces as the 500 of `serveTile`). -/
def handlerAdminTile (db : String → Except Unit (Option Bytes))
    (cache : CacheState) (now : ℕ) (layer zs xs ys : String) : HttpOutcome :=
  match parseTileParams zs xs ys with
  | none => ⟨400, [], [], cache⟩
  | some (z, x, y) =>
    let g := geoAdminTile db layer z x y
    let o := serveTile cache now (adminCacheKey layer z x y) adminTileCacheTTL g.1
    ⟨o.status, o.body, if o.fetched then g.2 else [], o.cache⟩

/-- The nine canonical TFV codes (`internal/geo/admin.go`, the
`CASE norm_code` of the Q2 SQL). -/
def canonicalTFVCodes : List String :=
  ["FF1", "FF2", "FF3", "FF4", "FO1", "FO2", "FO3", "LA", "FP"]

/-- Raw `code_tfv` values are modelled as character lists; SQL
`LIKE 'P%'` is the list-prefix relation. -/
abbrev TFVCode := List Char

/-- Q2 rule for `FF1`: `code_tfv LIKE 'FF1%' OR code_tfv = 'FF0' OR
code_tfv IN ('AFJ','AFV','HFW','HFZ','QF')`. -/
def tfvRuleFF1 (s : TFVCode) : Prop :=
  "FF1".toList <+: s ∨ s = "FF0".toList ∨
    s ∈ ["AFJ".toList, "AFV".toList, "HFW".toList, "HFZ".toList, "QF".toList]

/-- Q2 rule for `FF2`: `LIKE 'FF2%' OR IN ('CPJ','CPV','CRJ','CRV')`. -/
def tfvRuleFF2 (s : TFVCode) : Prop :=
  "FF2".toList <+: s ∨
    s ∈ ["CPJ".toList, "CPV".toList, "CRJ".toList, "CRV".toList]

/-- Q2 rule for `FF3`: `LIKE 'FF3%' OR IN ('FR','MR')`. -/
def tfvRuleFF3 (s : TFVCode) : Prop :=
  "FF3".toList <+: s ∨ s ∈ ["FR".toList, "MR".toList]

/-- Q2 rule for `FO1`: `LIKE 'FO1%' OR = '30'`. -/
def tfvRuleFO1 (s : TFVCode) : Prop :=
  "FO1".toList <+: s ∨ s = "30".toList

/-- Q2 rule for `FO2`: `LIKE 'FO2%'`. -/
def tfvRuleFO2 (s : TFVCode) : Prop :=
  "FO2".toList <+: s

/-- Q2 rule for `FO3`: `LIKE 'FO3%'`. -/
def tfvRuleFO3 (s : TFVCode) : Prop :=
  "FO3".toList <+: s

/-- Q2 rule for `LA`: `LIKE 'LA%' OR = '40'`. -/
def tfvRuleLA (s : TFVCode) : Prop :=
  "LA".toList <+: s ∨ s = "40".toList

/-- Q2 rule for `FP`: `= 'FP' OR = '50'`. -/
def tfvRuleFP (s : TFVCode) : Prop :=
  s = "FP".toList ∨ s = "50".toList

instance (s : TFVCode) : Decidable (tfvRuleFF1 s) := by unfold tfvRuleFF1; infer_instance

instance (s : TFVCode) : Decidable (tfvRuleFF2 s) := by unfold tfvRuleFF2; infer_instance

instance (s : TFVCode) : Decidable (tfvRuleFF3 s) := by unfold tfvRuleFF3; infer_instance

instance (s : TFVCode) : Decidable (tfvRuleFO1 s) := by unfold tfvRuleFO1; infer_instance

instance (s : TFVCode) : Decidable (tfvRuleFO2 s) := by unfold tfvRuleFO2; infer_instance

instance (s : TFVCode) : Decidable (tfvRuleFO3 s) := by unfold tfvRuleFO3; infer_instance

instance (s : TFVCode) : Decidable (tfvRuleLA s) := by unfold tfvRuleLA; infer_instance

instance (s : TFVCode) : Decidable (tfvRuleFP s) := by unfold tfvRuleFP; infer_instance

/-- The Q2 `CASE` expression of `AnalyzePolygon`
(`internal/geo/admin.go`): first matching rule wins, `FF4` is the
`ELSE`. -/
def normalizeTFV (s : TFVCode) : String :=
  if tfvRuleFF1 s then "FF1"
  else if tfvRuleFF2 s then "FF2"
  else if tfvRuleFF3 s then "FF3"
  else if tfvRuleFO1 s then "FO1"
  else if tfvRuleFO2 s then "FO2"
  else if tfvRuleFO3 s then "FO3"
  else if tfvRuleLA s then "LA"
  else if tfvRuleFP s then "FP"
  else "FF4"

/-- Some non-`FF4` rule of the Q2 `CASE` matches. -/
def tfvRuleAny (s : TFVCode) : Prop :=
  tfvRuleFF1 s ∨ tfvRuleFF2 s ∨ tfvRuleFF3 s ∨ tfvRuleFO1 s ∨
    tfvRuleFO2 s ∨ tfvRuleFO3 s ∨ tfvRuleLA s ∨ tfvRuleFP s

/-- The program counter of one concurrent `serveTile` request for a fixed
uncached fingerprint: `start` = about to issue the cache `GET`;
`fetched b` = the `GET` missed and `fetch` returned `b` (counted as one
fetch invocation); `done b` = the response `b` was written (either straight
from a cache hit, or after the `SET`). -/
inductive SFPC where
  | start : SFPC
  | fetched : Bytes → SFPC
  | done : Bytes → SFPC
deriving DecidableEq, Repr

/-- Shared state of `n` concurrent requests for one fingerprint: the cache
cell for that fingerprint, one program counter per request, and the number
of `fetch` invocations so far. -/
structure SFState where
  cache : Option Bytes
  pcs : List SFPC
  fetchCount : ℕ
deriving DecidableEq, Repr

/-- One atomic step of request `i`, following `serveTile`
(`internal/tiles/handler.go`): at `start`, read the cache — a hit responds
with the cached bytes at once, a miss invokes `fetch` (the Go code decides
to fetch solely on this read; no locking or pending map exists); at
`fetched b`, perform the `SET` and respond.  `fetch` is deterministic for
the fingerprint: it always yields `fetchVal`. -/
def sfStep (fetchVal : Bytes) (s : SFState) (i : ℕ) : SFState :=
  match s.pcs.get? i with
  | none => s
  | some .start =>
    match s.cache with
    | some b => { s with pcs := s.pcs.set i (.done b) }
    | none =>
      { s with pcs := s.pcs.set i (.fetched fetchVal),
               fetchCount := s.fetchCount + 1 }
  | some (.fetched b) =>
    { cache := some b, pcs := s.pcs.set i (.done b), fetchCount := s.fetchCount }
  | some (.done _) => s

/-- Run a schedule (an arbitrary interleaving of request steps). -/
def sfRun (fetchVal : Bytes) (s : SFState) (sched : List ℕ) : SFState :=
  sched.foldl (sfStep fetchVal) s

/-- `n` requests arriving while the fingerprint is uncached. -/
def sfInit (n : ℕ) : SFState :=
  ⟨none, List.replicate n .start, 0⟩

/-- Program counters only ever carry the deterministic fetch result. -/
def sfPCOk (fetchVal : Bytes) : SFPC → Prop
  | .start => True
  | .fetched b => b = fetchVal
  | .done b => b = fetchVal

/-- The number of requests still at `start`. -/
def countStart (pcs : List SFPC) : ℕ :=
  pcs.countP (fun pc => decide (pc = SFPC.start))

/-- The reachability invariant of the interleaving machine. -/
structure SFInv (fetchVal : Bytes) (n : ℕ) (s : SFState) : Prop where
  len : s.pcs.length = n
  cacheOk : s.cache = none ∨ s.cache = some fetchVal
  pcsOk : ∀ pc ∈ s.pcs, sfPCOk fetchVal pc
  countBound : s.fetchCount + countStart s.pcs ≤ n
  cachePos : s.cache ≠ none → 1 ≤ s.fetchCount
  donePos : ∀ pc ∈ s.pcs, pc ≠ SFPC.start → 1 ≤ s.fetchCount

/-! ## Theorems -/

/-- Claim C9: whenever the IFD supplies a ModelPixelScale array with at
least 2 values and a ModelTiepoint array with at least 6 values, the
raster's bbox is exactly `[xMin, yMin, xMax, yMax]` with
`xMin = tieX − tieI·scaleX`, `yMax = tieY + tieJ·scaleY`,
`xMax = xMin + W·scaleX`, `yMin = yMax − H·scaleY`, where the tiepoint
elements 0,1,3,4 and the first two scale values are used. -/
theorem geotiff_bbox_formula (width height : ℕ) (scales tiepoints : List ℚ)
    (hs : 2 ≤ scales.length) (ht : 6 ≤ tiepoints.length) :
    rasterGeoBBox width height scales tiepoints =
      { b0 := tiepoints.getD 3 0 - tiepoints.getD 0 0 * scales.getD 0 0
        b1 := (tiepoints.getD 4 0 + tiepoints.getD 1 0 * scales.getD 1 0) -
                (height : ℚ) * scales.getD 1 0
        b2 := (tiepoints.getD 3 0 - tiepoints.getD 0 0 * scales.getD 0 0) +
                (width : ℚ) * scales.getD 0 0
        b3 := tiepoints.getD 4 0 + tiepoints.getD 1 0 * scales.getD 1 0 } := by
  simp [rasterGeoBBox, hs, ht]

/-- Witness for C9 at a concrete scale/tiepoint configuration. -/
theorem geotiff_bbox_formula_witness :
    2 ≤ ([1, 2] : List ℚ).length ∧ 6 ≤ ([0, 0, 0, 10, 20, 0] : List ℚ).length ∧
    rasterGeoBBox 4 3 [1, 2] [0, 0, 0, 10, 20, 0] =
      { b0 := ([0, 0, 0, 10, 20, 0] : List ℚ).getD 3 0 -
                ([0, 0, 0, 10, 20, 0] : List ℚ).getD 0 0 * ([1, 2] : List ℚ).getD 0 0
        b1 := (([0, 0, 0, 10, 20, 0] : List ℚ).getD 4 0 +
                ([0, 0, 0, 10, 20, 0] : List ℚ).getD 1 0 * ([1, 2] : List ℚ).getD 1 0) -
                (3 : ℚ) * ([1, 2] : List ℚ).getD 1 0
        b2 := (([0, 0, 0, 10, 20, 0] : List ℚ).getD 3 0 -
                ([0, 0, 0, 10, 20, 0] : List ℚ).getD 0 0 * ([1, 2] : List ℚ).getD 0 0) +
                (4 : ℚ) * ([1, 2] : List ℚ).getD 0 0
        b3 := ([0, 0, 0, 10, 20, 0] : List ℚ).getD 4 0 +
                ([0, 0, 0, 10, 20, 0] : List ℚ).getD 1 0 * ([1, 2] : List ℚ).getD 1 0 } :=
  ⟨by decide, by decide, geotiff_bbox_formula 4 3 [1, 2] [0, 0, 0, 10, 20, 0]
    (by decide) (by decide)⟩

/-- Claim C10: `computeCHM` returns a raster whose width and height are the
pairwise minima of the inputs, whose data has length exactly
`Width × Height`, whose nodata sentinel is `-9999` with `HasNoData` set,
and whose `BBox` and `EPSG` are copied unchanged from the MNS argument
(even when the output grid is cropped smaller than the MNS raster). -/
theorem computeCHM_frame (mns mnt : Raster) :
    (computeCHM mns mnt).Width = min mns.Width mnt.Width ∧
    (computeCHM mns mnt).Height = min mns.Height mnt.Height ∧
    (computeCHM mns mnt).Data.length =
      (computeCHM mns mnt).Width * (computeCHM mns mnt).Height ∧
    (computeCHM mns mnt).NoData = F32.val (-9999) ∧
    (computeCHM mns mnt).HasNoData = true ∧
    (computeCHM mns mnt).BBox = mns.BBox ∧
    (computeCHM mns mnt).EPSG = mns.EPSG := by
  refine ⟨rfl, rfl, ?_, rfl, rfl, rfl, rfl⟩
  simp [computeCHM]

/-- Evaluating a `range`-backed pixel list at an in-range index. -/
theorem getD_range_map (f : ℕ → F32) (n i : ℕ) (h : i < n) :
    ((List.range n).map f).getD i (.val 0) = f i := by
  rw [List.getD_eq_getElem?_getD]
  simp [List.getElem?_map, List.getElem?_range h]

/-- Row-major index bound: `y*w + x < w*h` for in-grid `(x, y)`. -/
theorem rowmajor_lt (x y w h : ℕ) (hx : x < w) (hy : y < h) :
    y * w + x < w * h := by
  calc y * w + x < y * w + w := by omega
    _ = (y + 1) * w := by ring
    _ ≤ h * w := Nat.mul_le_mul_right w hy
    _ = w * h := Nat.mul_comm h w

/-- Row-major index decomposition: quotient. -/
theorem rowmajor_div (x y w : ℕ) (hx : x < w) : (y * w + x) / w = y := by
  rw [Nat.mul_comm y w, Nat.mul_add_div (by omega : 0 < w)]
  simp [Nat.div_eq_of_lt hx]

/-- Row-major index decomposition: remainder. -/
theorem rowmajor_mod (x y w : ℕ) (hx : x < w) : (y * w + x) % w = x := by
  rw [Nat.mul_comm y w, Nat.mul_add_mod]
  exact Nat.mod_eq_of_lt hx

/-- Splitting a true Boolean conjunction. -/
theorem band_true_split {a b : Bool} (h : (a && b) = true) : a = true ∧ b = true := by
  cases a <;> cases b <;> simp_all

/-- `chmCore` emits the nodata sentinel exactly on the nodata/NaN branch. -/
theorem chmCore_nodata (hn1 : Bool) (nd1 : F32) (hn2 : Bool) (nd2 : F32)
    (mv tv : F32)
    (h : (hn1 = true ∧ F32.beq mv nd1 = true) ∨
      (hn2 = true ∧ F32.beq tv nd2 = true) ∨
      mv.isNaN = true ∨ tv.isNaN = true) :
    chmCore hn1 nd1 hn2 nd2 mv tv = chmNoData := by
  unfold chmCore
  by_cases hc : ((hn1 && F32.beq mv nd1) || (hn2 && F32.beq tv nd2)) = true
  · rw [if_pos hc]
  · rw [if_neg hc]
    rcases h with ⟨h1, h2⟩ | ⟨h1, h2⟩ | h1 | h1
    · exact absurd (Bool.or_eq_true_iff.mpr (Or.inl (by rw [h1, h2]; rfl))) hc
    · exact absurd (Bool.or_eq_true_iff.mpr (Or.inr (by rw [h1, h2]; rfl))) hc
    · rw [if_pos (Bool.or_eq_true_iff.mpr (Or.inl h1))]
    · rw [if_pos (Bool.or_eq_true_iff.mpr (Or.inr h1))]

/-- On two finite non-nodata inputs, `chmCore` is the clamped difference
`max 0 (a - b)`. -/
theorem chmCore_valid (hn1 : Bool) (nd1 : F32) (hn2 : Bool) (nd2 : F32)
    (a b : ℚ)
    (h1 : ¬ (hn1 = true ∧ F32.beq (F32.val a) nd1 = true))
    (h2 : ¬ (hn2 = true ∧ F32.beq (F32.val b) nd2 = true)) :
    chmCore hn1 nd1 hn2 nd2 (.val a) (.val b) = .val (max 0 (a - b)) := by
  unfold chmCore
  have hc : ((hn1 && F32.beq (F32.val a) nd1) || (hn2 && F32.beq (F32.val b) nd2)) ≠ true := by
    intro hc
    rcases Bool.or_eq_true_iff.mp hc with hx | hx
    · exact h1 (band_true_split hx)
    · exact h2 (band_true_split hx)
  rw [if_neg hc]
  have hnan : ((F32.val a).isNaN || (F32.val b).isNaN) = false := rfl
  rw [if_neg (by rw [hnan]; exact Bool.false_ne_true)]
  show F32.clampNeg (F32.val (a - b)) = F32.val (max 0 (a - b))
  rcases lt_or_le (a - b) 0 with hlt | hle
  · simp [F32.clampNeg, hlt, max_eq_left hlt.le]
  · simp [F32.clampNeg, not_lt.mpr hle, max_eq_right hle]

/-- Claim C6: for every MNS/MNT raster pair, `computeCHM` iterates over the
minimum overlapping rectangle and, at each in-grid pixel `(x, y)`, emits the
CHM nodata sentinel when either input is its raster's nodata value or NaN,
and otherwise emits `max 0 (mns − mnt)`, clamping negative differences to
zero. -/
theorem computeCHM_pixel (mns mnt : Raster) (x y : ℕ)
    (hx : x < min mns.Width mnt.Width) (hy : y < min mns.Height mnt.Height) :
    ((mns.HasNoData = true ∧
        F32.beq (mns.Data.getD (y * mns.Width + x) (.val 0)) mns.NoData = true) ∨
      (mnt.HasNoData = true ∧
        F32.beq (mnt.Data.getD (y * mnt.Width + x) (.val 0)) mnt.NoData = true) ∨
      (mns.Data.getD (y * mns.Width + x) (.val 0)).isNaN = true ∨
      (mnt.Data.getD (y * mnt.Width + x) (.val 0)).isNaN = true →
      (computeCHM mns mnt).Data.getD (y * min mns.Width mnt.Width + x) (.val 0) =
        chmNoData) ∧
    (∀ a b : ℚ, mns.Data.getD (y * mns.Width + x) (.val 0) = .val a →
      mnt.Data.getD (y * mnt.Width + x) (.val 0) = .val b →
      ¬ (mns.HasNoData = true ∧
          F32.beq (mns.Data.getD (y * mns.Width + x) (.val 0)) mns.NoData = true) →
      ¬ (mnt.HasNoData = true ∧
          F32.beq (mnt.Data.getD (y * mnt.Width + x) (.val 0)) mnt.NoData = true) →
      (computeCHM mns mnt).Data.getD (y * min mns.Width mnt.Width + x) (.val 0) =
        .val (max 0 (a - b))) := by
  have hw : x < min mns.Width mnt.Width := hx
  have hh : y < min mns.Height mnt.Height := hy
  have hlt : y * min mns.Width mnt.Width + x <
      min mns.Width mnt.Width * min mns.Height mnt.Height :=
    rowmajor_lt x y _ _ hw hh
  have hout : (computeCHM mns mnt).Data.getD
      (y * min mns.Width mnt.Width + x) (.val 0) =
      chmPixel mns mnt (min mns.Width mnt.Width)
        (y * min mns.Width mnt.Width + x) := by
    show ((List.range _).map _).getD _ _ = _
    exact getD_range_map _ _ _ hlt
  have hdiv := rowmajor_div x y (min mns.Width mnt.Width) hw
  have hmod := rowmajor_mod x y (min mns.Width mnt.Width) hw
  have hpix : chmPixel mns mnt (min mns.Width mnt.Width)
      (y * min mns.Width mnt.Width + x) =
      chmCore mns.HasNoData mns.NoData mnt.HasNoData mnt.NoData
        (mns.Data.getD (y * mns.Width + x) (.val 0))
        (mnt.Data.getD (y * mnt.Width + x) (.val 0)) := by
    unfold chmPixel
    rw [hdiv, hmod]
  constructor
  · intro hcase
    rw [hout, hpix]
    exact chmCore_nodata _ _ _ _ _ _ hcase
  · intro a b ha hb hn1 hn2
    rw [hout, hpix, ha, hb]
    rw [ha] at hn1
    rw [hb] at hn2
    exact chmCore_valid _ _ _ _ a b hn1 hn2

/-- Witness for C6 at a concrete pixel: two 1×1 rasters with values 3 and 5
(no nodata), where the CHM pixel is `max 0 (3 − 5) = 0`. -/
theorem computeCHM_pixel_witness :
    (0 < min 1 1 ∧ (0:ℕ) < min 1 1) ∧
    (computeCHM
        { Width := 1, Height := 1, Data := [.val 3], NoData := .val 0,
          HasNoData := false, BBox := ⟨0, 0, 0, 0⟩, EPSG := 0 }
        { Width := 1, Height := 1, Data := [.val 5], NoData := .val 0,
          HasNoData := false, BBox := ⟨0, 0, 0, 0⟩, EPSG := 0 }).Data.getD
      (0 * min 1 1 + 0) (.val 0) = .val (max 0 (3 - 5)) := by
  refine ⟨⟨by decide, by decide⟩, ?_⟩
  exact (computeCHM_pixel
    { Width := 1, Height := 1, Data := [.val 3], NoData := .val 0,
      HasNoData := false, BBox := ⟨0, 0, 0, 0⟩, EPSG := 0 }
    { Width := 1, Height := 1, Data := [.val 5], NoData := .val 0,
      HasNoData := false, BBox := ⟨0, 0, 0, 0⟩, EPSG := 0 }
    0 0 (by decide) (by decide)).2 3 5 rfl rfl
    (by simp) (by simp)

/-- Counterexample to C7 as stated: with a mosaic bbox in an unrecognised
CRS (EPSG:3857, huge coordinates) and an input polygon whose own bbox is
itself outside WGS84 ranges (longitude 200..201 — `geojsonBBox` never range
checks user coordinates), the fallback is returned unvalidated and the
result lies outside the valid WGS84 ranges. -/
theorem lidar_bounds_counterexample :
    ¬ isValidWGS84 (finalLidarBounds (86/125)
      { b0 := 2000000, b1 := 0, b2 := 0, b3 := 0 } 3857
      { b0 := 200, b1 := 0, b2 := 201, b3 := 1 }) := by
  decide

/-- Claim C7 (amended): the returned bounds are the converted mosaic bbox
when that conversion is valid WGS84, and the polygon's own bbox otherwise;
an EPSG:4326 bbox passes through and an EPSG:2154 (or Lambert-93-looking
EPSG 0) bbox gets the closed-form affine conversion.  The result is
guaranteed to lie within WGS84 ranges only when the polygon's own bbox
does (the code does not re-validate the fallback). -/
theorem lidar_bounds_safety (c : ℚ) (merged poly : BBox4) (epsg : ℤ)
    (hpoly : isValidWGS84 poly) :
    isValidWGS84 (finalLidarBounds c merged epsg poly) ∧
    estimateWGS84Bounds c merged 4326 = merged ∧
    (epsg = 2154 → estimateWGS84Bounds c merged epsg =
      { b0 := lambert93ToLon c merged.b0 merged.b1
        b1 := lambert93ToLat merged.b0 merged.b1
        b2 := lambert93ToLon c merged.b2 merged.b3
        b3 := lambert93ToLat merged.b2 merged.b3 }) ∧
    (epsg = 0 → looksLikeLambert93 merged → estimateWGS84Bounds c merged epsg =
      { b0 := lambert93ToLon c merged.b0 merged.b1
        b1 := lambert93ToLat merged.b0 merged.b1
        b2 := lambert93ToLon c merged.b2 merged.b3
        b3 := lambert93ToLat merged.b2 merged.b3 }) ∧
    (¬ isValidWGS84 (estimateWGS84Bounds c merged epsg) →
      finalLidarBounds c merged epsg poly = poly) := by
  refine ⟨?_, ?_, ?_, ?_, ?_⟩
  · unfold finalLidarBounds
    by_cases hv : isValidWGS84 (estimateWGS84Bounds c merged epsg)
    · rw [if_pos hv]
      exact hv
    · rw [if_neg hv]
      exact hpoly
  · unfold estimateWGS84Bounds
    rw [if_pos rfl]
  · intro he
    subst he
    unfold estimateWGS84Bounds
    rw [if_neg (by decide), if_pos (Or.inl rfl)]
  · intro he hl
    subst he
    unfold estimateWGS84Bounds
    rw [if_neg (by decide), if_pos (Or.inr ⟨rfl, hl⟩)]
  · intro hv
    unfold finalLidarBounds
    rw [if_neg hv]

/-- Witness for C7 (amended) at a concrete valid polygon bbox. -/
theorem lidar_bounds_safety_witness :
    isValidWGS84 { b0 := 2, b1 := 48, b2 := 3, b3 := 49 } ∧
    isValidWGS84 (finalLidarBounds (86/125)
      { b0 := 700000, b1 := 6600000, b2 := 700001, b3 := 6600001 } 2154
      { b0 := 2, b1 := 48, b2 := 3, b3 := 49 }) :=
  ⟨by decide, (lidar_bounds_safety (86/125)
    { b0 := 700000, b1 := 6600000, b2 := 700001, b3 := 6600001 }
    { b0 := 2, b1 := 48, b2 := 3, b3 := 49 } 2154 (by decide)).1⟩

/-- Counterexample to C5 as stated: for the surviving canopy values
`[2, 3]` (an even count), the code reports `MedianHeight = 3` — the element
at index `len/2 = 1`, i.e. the UPPER median — while the lower median of the
sorted values is `2`. -/
theorem canopy_median_counterexample :
    (canopyStats [2, 3]).map CanopyStats.MedianHeight = some 3 ∧
    round2 (lowerMedianOfSorted (List.insertionSort (· ≤ ·)
      (([2, 3] : List ℚ).filter (fun v => canopyThreshold ≤ v)))) = 2 ∧
    (3 : ℚ) ≠ 2 := by
  refine ⟨?_, ?_, by norm_num⟩
  · have h : canopyStats [2, 3] = some
        { MinHeight := round2 2, MaxHeight := round2 3,
          MeanHeight := round2 ((0 + 2 + 3) / 2), MedianHeight := round2 3 } := by
      rfl
    rw [h]
    simp only [Option.map_some']
    congr 1
    unfold round2 goRound
    norm_num
  · have h : lowerMedianOfSorted (List.insertionSort (· ≤ ·)
        (([2, 3] : List ℚ).filter (fun v => canopyThreshold ≤ v))) = 2 := by
      rfl
    rw [h]
    unfold round2 goRound
    norm_num

/-- Claim C5 (amended): after sorting the surviving canopy values (those
`≥ 2.0`) ascending, the reported `MedianHeight` is the element at index
`⌊n/2⌋` — the middle element when the count is odd and the UPPER median
when the count is even (not the lower median) — and each of `MinHeight`
(first element), `MaxHeight` (last element), `MeanHeight` (sum/count) and
`MedianHeight` is rounded to 2 decimal places.  Stated for an arbitrary
ascending-sorted permutation `sorted` of the surviving values. -/
theorem canopy_stats_spec (l sorted : List ℚ)
    (hne : l.filter (fun v => canopyThreshold ≤ v) ≠ [])
    (hperm : sorted.Perm (l.filter (fun v => canopyThreshold ≤ v)))
    (hsort : sorted.Sorted (· ≤ ·)) :
    canopyStats l = some
      { MinHeight := round2 (sorted.getD 0 0)
        MaxHeight := round2 (sorted.getD (sorted.length - 1) 0)
        MeanHeight := round2 (sorted.sum / (sorted.length : ℚ))
        MedianHeight := round2 (sorted.getD (sorted.length / 2) 0) } := by
  have hs0 : sorted = List.insertionSort (· ≤ ·)
      (l.filter (fun v => canopyThreshold ≤ v)) := by
    refine List.eq_of_perm_of_sorted ?_ hsort
      (List.sorted_insertionSort _ _)
    exact hperm.trans (List.perm_insertionSort _ _).symm
  have hempty : (l.filter (fun v => canopyThreshold ≤ v)).isEmpty = false := by
    rcases Bool.eq_false_or_eq_true (l.filter (fun v => canopyThreshold ≤ v)).isEmpty with h | h
    · exact absurd (List.isEmpty_iff.mp h) hne
    · exact h
  unfold canopyStats
  simp only [hempty, Bool.false_eq_true, if_false]
  rw [← hs0, List.sum_eq_foldl]

/-- Witness for C5 (amended) at the surviving canopy values `[2, 3]`. -/
theorem canopy_stats_spec_witness :
    (([2, 3] : List ℚ).filter (fun v => canopyThreshold ≤ v) ≠ [] ∧
      ([2, 3] : List ℚ).Perm (([2, 3] : List ℚ).filter (fun v => canopyThreshold ≤ v)) ∧
      ([2, 3] : List ℚ).Sorted (· ≤ ·)) ∧
    canopyStats [2, 3] = some
      { MinHeight := round2 (([2, 3] : List ℚ).getD 0 0)
        MaxHeight := round2 (([2, 3] : List ℚ).getD (([2, 3] : List ℚ).length - 1) 0)
        MeanHeight := round2 (([2, 3] : List ℚ).sum / (([2, 3] : List ℚ).length : ℚ))
        MedianHeight := round2 (([2, 3] : List ℚ).getD (([2, 3] : List ℚ).length / 2) 0) } :=
  ⟨⟨by decide, by decide, by decide⟩,
    canopy_stats_spec [2, 3] [2, 3] (by decide) (by decide) (by decide)⟩

/-- Claim C8: when the MNS index query returns more than 25 tiles,
`AnalyzeLidar` returns `HasCoverage = false` with the "area too large"
message naming the cap 25, the only effect is the MNS index query itself —
no raster download is dispatched and no MNT index query is issued — so the
check happens before any fetch task. -/
theorem lidar_tile_cap (mns mnt : List WFSTile) (h : maxLidarTiles < mns.length) :
    (analyzeLidarIndexPhase mns mnt).1 =
      some { HasCoverage := false, Message := tooLargeMsg mns.length } ∧
    (maxLidarTiles = 25 ∧ tooLargeMsg mns.length =
      "Area too large: " ++ toString mns.length ++ " LIDAR tiles required (max " ++
        toString maxLidarTiles ++ "). Please draw a smaller polygon.") ∧
    (analyzeLidarIndexPhase mns mnt).2 = [.wfsQuery mnsTypeName] ∧
    (∀ s, LidarEffect.download s ∉ (analyzeLidarIndexPhase mns mnt).2) ∧
    LidarEffect.wfsQuery mntTypeName ∉ (analyzeLidarIndexPhase mns mnt).2 := by
  have h0 : ¬ mns.length = 0 := by
    unfold maxLidarTiles at h
    omega
  have hphase : analyzeLidarIndexPhase mns mnt =
      (some { HasCoverage := false, Message := tooLargeMsg mns.length },
        [.wfsQuery mnsTypeName]) := by
    unfold analyzeLidarIndexPhase
    rw [if_neg h0, if_pos h]
  refine ⟨by rw [hphase], ⟨rfl, rfl⟩, by rw [hphase], ?_, ?_⟩
  · intro s hmem
    rw [hphase] at hmem
    simp at hmem
  · intro hmem
    rw [hphase] at hmem
    simp [mnsTypeName, mntTypeName] at hmem

/-- Witness for C8 with 26 MNS tiles. -/
theorem lidar_tile_cap_witness :
    maxLidarTiles < (List.replicate 26 (⟨"", ""⟩ : WFSTile)).length ∧
    (analyzeLidarIndexPhase (List.replicate 26 ⟨"", ""⟩) []).1 =
      some { HasCoverage := false
             Message := tooLargeMsg (List.replicate 26 (⟨"", ""⟩ : WFSTile)).length } :=
  ⟨by decide, (lidar_tile_cap (List.replicate 26 ⟨"", ""⟩) [] (by decide)).1⟩

/-- Claim C4: when `fetch` returns an empty (or nil) result for an uncached
fingerprint, `serveTile` stores an empty byte string under the fingerprint
with the given TTL and responds 204; any subsequent request for the same
fingerprint within the TTL window responds 204 from the cache without
invoking `fetch` again (and leaves the cache unchanged, so this holds for
every such request). -/
theorem negative_caching (cache : CacheState) (now t2 : ℕ) (key : String)
    (ttl : ℕ) (fetch1 fetch2 : FetchResult)
    (hmiss : cacheGet cache now key = none)
    (hempty : fetch1 = .ok none ∨ fetch1 = .ok (some []))
    (hwin : t2 < now + ttl) :
    (serveTile cache now key ttl fetch1).status = 204 ∧
    (serveTile cache now key ttl fetch1).fetched = true ∧
    (serveTile cache now key ttl fetch1).cache = cacheSet cache now key [] ttl ∧
    (serveTile (serveTile cache now key ttl fetch1).cache t2 key ttl fetch2).status = 204 ∧
    (serveTile (serveTile cache now key ttl fetch1).cache t2 key ttl fetch2).fetched = false ∧
    (serveTile (serveTile cache now key ttl fetch1).cache t2 key ttl fetch2).cache =
      (serveTile cache now key ttl fetch1).cache := by
  have h1 : serveTile cache now key ttl fetch1 =
      ⟨204, [], true, cacheSet cache now key [] ttl⟩ := by
    rcases hempty with he | he <;>
      · subst he
        unfold serveTile
        rw [hmiss]
        rfl
  have hget2 : cacheGet (cacheSet cache now key [] ttl) t2 key = some [] := by
    unfold cacheGet cacheSet cacheLookup
    simp [List.find?, hwin]
  have h2 : serveTile (cacheSet cache now key [] ttl) t2 key ttl fetch2 =
      ⟨204, [], false, cacheSet cache now key [] ttl⟩ := by
    unfold serveTile
    rw [hget2]
    rfl
  rw [h1]
  refine ⟨rfl, rfl, rfl, ?_, ?_, ?_⟩ <;> simp only [h2]

/-- Witness for C4: empty cache, a nil fetch result, and a second request
at a later time still inside the 24 h window. -/
theorem negative_caching_witness :
    (cacheGet ⟨[]⟩ 0 "tile:foret:1:2:3" = none ∧
      (FetchResult.ok none = FetchResult.ok none ∨
        FetchResult.ok none = FetchResult.ok (some [])) ∧
      5 < 0 + tileCacheTTL) ∧
    (serveTile ⟨[]⟩ 0 "tile:foret:1:2:3" tileCacheTTL (.ok none)).status = 204 ∧
    (serveTile (serveTile ⟨[]⟩ 0 "tile:foret:1:2:3" tileCacheTTL (.ok none)).cache
      5 "tile:foret:1:2:3" tileCacheTTL FetchResult.err).status = 204 ∧
    (serveTile (serveTile ⟨[]⟩ 0 "tile:foret:1:2:3" tileCacheTTL (.ok none)).cache
      5 "tile:foret:1:2:3" tileCacheTTL FetchResult.err).fetched = false := by
  have h := negative_caching ⟨[]⟩ 0 5 "tile:foret:1:2:3" tileCacheTTL
    (.ok none) FetchResult.err rfl (Or.inl rfl) (by decide)
  exact ⟨⟨rfl, Or.inl rfl, by decide⟩, h.1, h.2.2.2.1, h.2.2.2.2.1⟩

/-- Counterexample to C2 as stated: a request for the non-allow-listed
layer `foo` with valid coordinates and an uncached key is answered with
HTTP 500 (`serveTile` maps the fetch error of `geo.AdminTile` to an
internal error), not with the claimed 400; no SQL reaches the database. -/
theorem admin_layer_counterexample :
    (handlerAdminTile (fun _ => .error ()) ⟨[]⟩ 0 "foo" "5" "10" "10").status = 500 ∧
    ¬ (handlerAdminTile (fun _ => .error ()) ⟨[]⟩ 0 "foo" "5" "10" "10").status = 400 ∧
    (handlerAdminTile (fun _ => .error ()) ⟨[]⟩ 0 "foo" "5" "10" "10").dbQueries = [] := by
  refine ⟨?_, ?_, ?_⟩ <;> decide

/-- Claim C2 (amended): for every layer outside
`{regions, departements, communes}`, no string-interpolated SQL query
carrying the layer value ever reaches the database (`geo.AdminTile` rejects
the layer before building the query), and the endpoint fails — with HTTP
500 (`tile generation failed`) when the coordinates parse and the key is
uncached, and with HTTP 400 only when the coordinates do not parse. -/
theorem admin_layer_guard (db : String → Except Unit (Option Bytes))
    (cache : CacheState) (now : ℕ) (layer zs xs ys : String)
    (hl : layer ∉ validAdminLayers) :
    (handlerAdminTile db cache now layer zs xs ys).dbQueries = [] ∧
    (∀ z x y : ℤ, geoAdminTile db layer z x y = (.err, [])) ∧
    (∀ z x y : ℤ, parseTileParams zs xs ys = some (z, x, y) →
      cacheGet cache now (adminCacheKey layer z x y) = none →
      (handlerAdminTile db cache now layer zs xs ys).status = 500) ∧
    (parseTileParams zs xs ys = none →
      (handlerAdminTile db cache now layer zs xs ys).status = 400) := by
  have hgeo : ∀ z x y : ℤ, geoAdminTile db layer z x y = (.err, []) := by
    intro z x y
    unfold geoAdminTile
    rw [if_pos hl]
  refine ⟨?_, hgeo, ?_, ?_⟩
  · unfold handlerAdminTile
    cases hp : parseTileParams zs xs ys with
    | none => rfl
    | some t =>
      rcases t with ⟨z, x, y⟩
      simp only [hgeo]
      cases hg : cacheGet cache now (adminCacheKey layer z x y) with
      | none =>
        unfold serveTile
        rw [hg]
        rfl
      | some cached =>
        unfold serveTile
        rw [hg]
        by_cases hc : cached.length = 0 <;> simp [hc]
  · intro z x y hp hg
    unfold handlerAdminTile
    rw [hp]
    simp only [hgeo]
    unfold serveTile
    rw [hg]
  · intro hp
    unfold handlerAdminTile
    rw [hp]

/-- Witness for C2 (amended) at the concrete layer `foo`. -/
theorem admin_layer_guard_witness :
    ("foo" ∉ validAdminLayers) ∧
    (handlerAdminTile (fun _ => .error ()) ⟨[]⟩ 0 "foo" "5" "10" "10").dbQueries = [] :=
  ⟨by decide, (admin_layer_guard (fun _ => .error ()) ⟨[]⟩ 0 "foo" "5" "10" "10"
    (by decide)).1⟩

/-- Two prefixes of one list are comparable; incomparable candidate
prefixes therefore never share a list. -/
theorem pfx_pfx_false (p q : List Char) (hne : ¬ (p <+: q) ∧ ¬ (q <+: p)) :
    ∀ s : List Char, p <+: s → q <+: s → False := by
  intro s hp hq
  rcases List.prefix_or_prefix_of_prefix hp hq with h | h
  · exact hne.1 h
  · exact hne.2 h

/-- A list with a prefix incomparable to `FF1` and not extending to any of
the `FF1` constants never matches the `FF1` rule. -/
theorem not_tfvRuleFF1_of_pfx (p s : TFVCode) (hp : p <+: s)
    (h1 : ¬ (p <+: "FF1".toList) ∧ ¬ ("FF1".toList <+: p))
    (h2 : ¬ (p <+: "FF0".toList)) (h3 : ¬ (p <+: "AFJ".toList))
    (h4 : ¬ (p <+: "AFV".toList)) (h5 : ¬ (p <+: "HFW".toList))
    (h6 : ¬ (p <+: "HFZ".toList)) (h7 : ¬ (p <+: "QF".toList)) :
    ¬ tfvRuleFF1 s := by
  rintro (hpre | heq | hmem)
  · exact pfx_pfx_false p "FF1".toList h1 s hp hpre
  · subst heq
    exact h2 hp
  · simp only [List.mem_cons, List.not_mem_nil, or_false] at hmem
    rcases hmem with rfl | rfl | rfl | rfl | rfl
    exacts [h3 hp, h4 hp, h5 hp, h6 hp, h7 hp]

/-- As above, for the `FF2` rule. -/
theorem not_tfvRuleFF2_of_pfx (p s : TFVCode) (hp : p <+: s)
    (h1 : ¬ (p <+: "FF2".toList) ∧ ¬ ("FF2".toList <+: p))
    (h2 : ¬ (p <+: "CPJ".toList)) (h3 : ¬ (p <+: "CPV".toList))
    (h4 : ¬ (p <+: "CRJ".toList)) (h5 : ¬ (p <+: "CRV".toList)) :
    ¬ tfvRuleFF2 s := by
  rintro (hpre | hmem)
  · exact pfx_pfx_false p "FF2".toList h1 s hp hpre
  · simp only [List.mem_cons, List.not_mem_nil, or_false] at hmem
    rcases hmem with rfl | rfl | rfl | rfl
    exacts [h2 hp, h3 hp, h4 hp, h5 hp]

/-- As above, for the `FF3` rule. -/
theorem not_tfvRuleFF3_of_pfx (p s : TFVCode) (hp : p <+: s)
    (h1 : ¬ (p <+: "FF3".toList) ∧ ¬ ("FF3".toList <+: p))
    (h2 : ¬ (p <+: "FR".toList)) (h3 : ¬ (p <+: "MR".toList)) :
    ¬ tfvRuleFF3 s := by
  rintro (hpre | hmem)
  · exact pfx_pfx_false p "FF3".toList h1 s hp hpre
  · simp only [List.mem_cons, List.not_mem_nil, or_false] at hmem
    rcases hmem with rfl | rfl
    exacts [h2 hp, h3 hp]

/-- As above, for the `FO1` rule. -/
theorem not_tfvRuleFO1_of_pfx (p s : TFVCode) (hp : p <+: s)
    (h1 : ¬ (p <+: "FO1".toList) ∧ ¬ ("FO1".toList <+: p))
    (h2 : ¬ (p <+: "30".toList)) :
    ¬ tfvRuleFO1 s := by
  rintro (hpre | heq)
  · exact pfx_pfx_false p "FO1".toList h1 s hp hpre
  · subst heq
    exact h2 hp

/-- As above, for the `FO2` rule. -/
theorem not_tfvRuleFO2_of_pfx (p s : TFVCode) (hp : p <+: s)
    (h1 : ¬ (p <+: "FO2".toList) ∧ ¬ ("FO2".toList <+: p)) :
    ¬ tfvRuleFO2 s :=
  fun hpre => pfx_pfx_false p "FO2".toList h1 s hp hpre

/-- As above, for the `FO3` rule. -/
theorem not_tfvRuleFO3_of_pfx (p s : TFVCode) (hp : p <+: s)
    (h1 : ¬ (p <+: "FO3".toList) ∧ ¬ ("FO3".toList <+: p)) :
    ¬ tfvRuleFO3 s :=
  fun hpre => pfx_pfx_false p "FO3".toList h1 s hp hpre

/-- A raw code matching the `FF1` rule is bucketed `FF1`. -/
theorem normalizeTFV_FF1 (s : TFVCode) (h : tfvRuleFF1 s) :
    normalizeTFV s = "FF1" := by
  unfold normalizeTFV
  rw [if_pos h]

/-- A raw code matching the `FF2` rule is bucketed `FF2`. -/
theorem normalizeTFV_FF2 (s : TFVCode) (h : tfvRuleFF2 s) :
    normalizeTFV s = "FF2" := by
  rcases h with hp | hmem
  · unfold normalizeTFV
    rw [if_neg (not_tfvRuleFF1_of_pfx "FF2".toList s hp (by decide) (by decide)
        (by decide) (by decide) (by decide) (by decide) (by decide)),
      if_pos (show tfvRuleFF2 s from Or.inl hp)]
  · simp only [List.mem_cons, List.not_mem_nil, or_false] at hmem
    rcases hmem with rfl | rfl | rfl | rfl <;> decide

/-- A raw code matching the `FF3` rule is bucketed `FF3`. -/
theorem normalizeTFV_FF3 (s : TFVCode) (h : tfvRuleFF3 s) :
    normalizeTFV s = "FF3" := by
  rcases h with hp | hmem
  · unfold normalizeTFV
    rw [if_neg (not_tfvRuleFF1_of_pfx "FF3".toList s hp (by decide) (by decide)
        (by decide) (by decide) (by decide) (by decide) (by decide)),
      if_neg (not_tfvRuleFF2_of_pfx "FF3".toList s hp (by decide) (by decide)
        (by decide) (by decide) (by decide)),
      if_pos (show tfvRuleFF3 s from Or.inl hp)]
  · simp only [List.mem_cons, List.not_mem_nil, or_false] at hmem
    rcases hmem with rfl | rfl <;> decide

/-- A raw code matching the `FO1` rule is bucketed `FO1`. -/
theorem normalizeTFV_FO1 (s : TFVCode) (h : tfvRuleFO1 s) :
    normalizeTFV s = "FO1" := by
  rcases h with hp | heq
  · unfold normalizeTFV
    rw [if_neg (not_tfvRuleFF1_of_pfx "FO1".toList s hp (by decide) (by decide)
        (by decide) (by decide) (by decide) (by decide) (by decide)),
      if_neg (not_tfvRuleFF2_of_pfx "FO1".toList s hp (by decide) (by decide)
        (by decide) (by decide) (by decide)),
      if_neg (not_tfvRuleFF3_of_pfx "FO1".toList s hp (by decide) (by decide)
        (by decide)),
      if_pos (show tfvRuleFO1 s from Or.inl hp)]
  · subst heq
    decide

/-- A raw code matching the `FO2` rule is bucketed `FO2`. -/
theorem normalizeTFV_FO2 (s : TFVCode) (h : tfvRuleFO2 s) :
    normalizeTFV s = "FO2" := by
  have hp : "FO2".toList <+: s := h
  unfold normalizeTFV
  rw [if_neg (not_tfvRuleFF1_of_pfx "FO2".toList s hp (by decide) (by decide)
      (by decide) (by decide) (by decide) (by decide) (by decide)),
    if_neg (not_tfvRuleFF2_of_pfx "FO2".toList s hp (by decide) (by decide)
      (by decide) (by decide) (by decide)),
    if_neg (not_tfvRuleFF3_of_pfx "FO2".toList s hp (by decide) (by decide)
      (by decide)),
    if_neg (not_tfvRuleFO1_of_pfx "FO2".toList s hp (by decide) (by decide)),
    if_pos h]

/-- A raw code matching the `FO3` rule is bucketed `FO3`. -/
theorem normalizeTFV_FO3 (s : TFVCode) (h : tfvRuleFO3 s) :
    normalizeTFV s = "FO3" := by
  have hp : "FO3".toList <+: s := h
  unfold normalizeTFV
  rw [if_neg (not_tfvRuleFF1_of_pfx "FO3".toList s hp (by decide) (by decide)
      (by decide) (by decide) (by decide) (by decide) (by decide)),
    if_neg (not_tfvRuleFF2_of_pfx "FO3".toList s hp (by decide) (by decide)
      (by decide) (by decide) (by decide)),
    if_neg (not_tfvRuleFF3_of_pfx "FO3".toList s hp (by decide) (by decide)
      (by decide)),
    if_neg (not_tfvRuleFO1_of_pfx "FO3".toList s hp (by decide) (by decide)),
    if_neg (not_tfvRuleFO2_of_pfx "FO3".toList s hp (by decide)),
    if_pos h]

/-- A raw code matching the `LA` rule is bucketed `LA`. -/
theorem normalizeTFV_LA (s : TFVCode) (h : tfvRuleLA s) :
    normalizeTFV s = "LA" := by
  rcases h with hp | heq
  · unfold normalizeTFV
    rw [if_neg (not_tfvRuleFF1_of_pfx "LA".toList s hp (by decide) (by decide)
        (by decide) (by decide) (by decide) (by decide) (by decide)),
      if_neg (not_tfvRuleFF2_of_pfx "LA".toList s hp (by decide) (by decide)
        (by decide) (by decide) (by decide)),
      if_neg (not_tfvRuleFF3_of_pfx "LA".toList s hp (by decide) (by decide)
        (by decide)),
      if_neg (not_tfvRuleFO1_of_pfx "LA".toList s hp (by decide) (by decide)),
      if_neg (not_tfvRuleFO2_of_pfx "LA".toList s hp (by decide)),
      if_neg (not_tfvRuleFO3_of_pfx "LA".toList s hp (by decide)),
      if_pos (show tfvRuleLA s from Or.inl hp)]
  · subst heq
    decide

/-- A raw code matching the `FP` rule is bucketed `FP`. -/
theorem normalizeTFV_FP (s : TFVCode) (h : tfvRuleFP s) :
    normalizeTFV s = "FP" := by
  rcases h with heq | heq <;>
    · subst heq
      decide

/-- Claim C3: the Q2 TFV normalisation is total — every (in particular
every non-empty) raw `code_tfv` is bucketed into exactly one of the nine
canonical codes, each of the eight explicit prefix/equality rules maps to
its own canonical code (the rules are mutually disjoint, so the `CASE`
order never reassigns a matching code), and `FF4` is assigned exactly to
the codes matched by no other rule. -/
theorem tfv_normalisation (s : TFVCode) (hs : s ≠ []) :
    normalizeTFV s ∈ canonicalTFVCodes ∧
    (tfvRuleFF1 s → normalizeTFV s = "FF1") ∧
    (tfvRuleFF2 s → normalizeTFV s = "FF2") ∧
    (tfvRuleFF3 s → normalizeTFV s = "FF3") ∧
    (tfvRuleFO1 s → normalizeTFV s = "FO1") ∧
    (tfvRuleFO2 s → normalizeTFV s = "FO2") ∧
    (tfvRuleFO3 s → normalizeTFV s = "FO3") ∧
    (tfvRuleLA s → normalizeTFV s = "LA") ∧
    (tfvRuleFP s → normalizeTFV s = "FP") ∧
    (normalizeTFV s = "FF4" ↔ ¬ tfvRuleAny s) := by
  refine ⟨?_, normalizeTFV_FF1 s, normalizeTFV_FF2 s, normalizeTFV_FF3 s,
    normalizeTFV_FO1 s, normalizeTFV_FO2 s, normalizeTFV_FO3 s,
    normalizeTFV_LA s, normalizeTFV_FP s, ?_, ?_⟩
  · unfold normalizeTFV
    split_ifs <;> decide
  · intro h4 hany
    rcases hany with h | h | h | h | h | h | h | h
    · rw [normalizeTFV_FF1 s h] at h4
      exact absurd h4 (by decide)
    · rw [normalizeTFV_FF2 s h] at h4
      exact absurd h4 (by decide)
    · rw [normalizeTFV_FF3 s h] at h4
      exact absurd h4 (by decide)
    · rw [normalizeTFV_FO1 s h] at h4
      exact absurd h4 (by decide)
    · rw [normalizeTFV_FO2 s h] at h4
      exact absurd h4 (by decide)
    · rw [normalizeTFV_FO3 s h] at h4
      exact absurd h4 (by decide)
    · rw [normalizeTFV_LA s h] at h4
      exact absurd h4 (by decide)
    · rw [normalizeTFV_FP s h] at h4
      exact absurd h4 (by decide)
  · intro hany
    unfold normalizeTFV
    rw [if_neg (fun h => hany (show tfvRuleAny s from Or.inl h)),
      if_neg (fun h => hany (show tfvRuleAny s from Or.inr (Or.inl h))),
      if_neg (fun h => hany (show tfvRuleAny s from Or.inr (Or.inr (Or.inl h)))),
      if_neg (fun h => hany (show tfvRuleAny s from
        Or.inr (Or.inr (Or.inr (Or.inl h))))),
      if_neg (fun h => hany (show tfvRuleAny s from
        Or.inr (Or.inr (Or.inr (Or.inr (Or.inl h)))))),
      if_neg (fun h => hany (show tfvRuleAny s from
        Or.inr (Or.inr (Or.inr (Or.inr (Or.inr (Or.inl h))))))),
      if_neg (fun h => hany (show tfvRuleAny s from
        Or.inr (Or.inr (Or.inr (Or.inr (Or.inr (Or.inr (Or.inl h)))))))),
      if_neg (fun h => hany (show tfvRuleAny s from
        Or.inr (Or.inr (Or.inr (Or.inr (Or.inr (Or.inr (Or.inr h))))))))]

/-- Witness for C3 at the raw legacy code `AFJ` (bucketed `FF1`). -/
theorem tfv_normalisation_witness :
    "AFJ".toList ≠ ([] : TFVCode) ∧
    (normalizeTFV "AFJ".toList ∈ canonicalTFVCodes ∧
      (tfvRuleFF1 "AFJ".toList → normalizeTFV "AFJ".toList = "FF1") ∧
      (tfvRuleFF2 "AFJ".toList → normalizeTFV "AFJ".toList = "FF2") ∧
      (tfvRuleFF3 "AFJ".toList → normalizeTFV "AFJ".toList = "FF3") ∧
      (tfvRuleFO1 "AFJ".toList → normalizeTFV "AFJ".toList = "FO1") ∧
      (tfvRuleFO2 "AFJ".toList → normalizeTFV "AFJ".toList = "FO2") ∧
      (tfvRuleFO3 "AFJ".toList → normalizeTFV "AFJ".toList = "FO3") ∧
      (tfvRuleLA "AFJ".toList → normalizeTFV "AFJ".toList = "LA") ∧
      (tfvRuleFP "AFJ".toList → normalizeTFV "AFJ".toList = "FP") ∧
      (normalizeTFV "AFJ".toList = "FF4" ↔ ¬ tfvRuleAny "AFJ".toList)) :=
  ⟨by decide, tfv_normalisation "AFJ".toList (by decide)⟩

/-- Replacing the element at an in-range index shifts `countP` by the
difference of the two elements' predicate values. -/
theorem countP_set_eq {α : Type} (l : List α) (i : ℕ) (a b : α) (p : α → Bool)
    (h : l.get? i = some a) :
    (l.set i b).countP p + (if p a then 1 else 0) =
      l.countP p + (if p b then 1 else 0) := by
  induction l generalizing i with
  | nil => simp at h
  | cons c t ih =>
    cases i with
    | zero =>
      simp only [List.get?] at h
      injection h with h
      subst h
      simp only [List.set, List.countP_cons]
      omega
    | succ j =>
      simp only [List.get?] at h
      have := ih j h
      simp only [List.set, List.countP_cons]
      omega

/-- `countStart` of the all-`start` initial configuration. -/
theorem countStart_replicate (n : ℕ) :
    countStart (List.replicate n SFPC.start) = n := by
  induction n with
  | zero => rfl
  | succ k ih =>
    simp only [List.replicate, countStart, List.countP_cons] at *
    simp only [ih]
    simp

/-- The invariant holds initially. -/
theorem sfInv_init (fetchVal : Bytes) (n : ℕ) : SFInv fetchVal n (sfInit n) := by
  constructor
  · simp [sfInit]
  · exact Or.inl rfl
  · intro pc hmem
    have := List.eq_of_mem_replicate hmem
    subst this
    trivial
  · simp [sfInit, countStart_replicate]
  · intro hc
    exact absurd rfl hc
  · intro pc hmem hne
    exact absurd (List.eq_of_mem_replicate hmem) hne

/-- Every step preserves the invariant. -/
theorem sfStep_inv (fetchVal : Bytes) (n : ℕ) (s : SFState) (i : ℕ)
    (h : SFInv fetchVal n s) : SFInv fetchVal n (sfStep fetchVal s i) := by
  cases hg : s.pcs.get? i with
  | none =>
    have hstep : sfStep fetchVal s i = s := by
      unfold sfStep
      rw [hg]
    rw [hstep]
    exact h
  | some pc =>
    have hmem : pc ∈ s.pcs := List.get?_mem hg
    cases pc with
    | start =>
      cases hc : s.cache with
      | some b =>
        have hbv : b = fetchVal := by
          rcases h.cacheOk with h' | h'
          · rw [hc] at h'
            exact absurd h' (by simp)
          · rw [hc] at h'
            injection h'
        have hstep : sfStep fetchVal s i =
            { s with pcs := s.pcs.set i (.done b) } := by
          unfold sfStep
          rw [hg, hc]
        rw [hstep]
        have hcnt := countP_set_eq s.pcs i SFPC.start (SFPC.done b)
          (fun pc => decide (pc = SFPC.start)) hg
        simp only [reduceCtorEq, decide_False, decide_True, if_true,
          if_false] at hcnt
        constructor
        · simp [h.len]
        · exact h.cacheOk
        · intro pc' hmem'
          rcases List.mem_or_eq_of_mem_set hmem' with h' | h'
          · exact h.pcsOk pc' h'
          · subst h'
            exact hbv
        · have hb := h.countBound
          dsimp only
          unfold countStart at hb ⊢
          omega
        · intro _
          exact h.cachePos (by rw [hc]; simp)
        · intro pc' hmem' hne
          exact h.cachePos (by rw [hc]; simp)
      | none =>
        have hstep : sfStep fetchVal s i =
            { s with pcs := s.pcs.set i (.fetched fetchVal),
                     fetchCount := s.fetchCount + 1 } := by
          unfold sfStep
          rw [hg, hc]
        rw [hstep]
        have hcnt := countP_set_eq s.pcs i SFPC.start (SFPC.fetched fetchVal)
          (fun pc => decide (pc = SFPC.start)) hg
        simp only [reduceCtorEq, decide_False, decide_True, if_true,
          if_false] at hcnt
        constructor
        · simp [h.len]
        · exact h.cacheOk
        · intro pc' hmem'
          rcases List.mem_or_eq_of_mem_set hmem' with h' | h'
          · exact h.pcsOk pc' h'
          · subst h'
            rfl
        · have hb := h.countBound
          dsimp only
          unfold countStart at hb ⊢
          omega
        · intro _
          dsimp only
          omega
        · intro pc' hmem' hne
          dsimp only
          omega
    | fetched b =>
      have hbv : b = fetchVal := h.pcsOk (.fetched b) hmem
      have hstep : sfStep fetchVal s i =
          { cache := some b, pcs := s.pcs.set i (.done b),
            fetchCount := s.fetchCount } := by
        unfold sfStep
        rw [hg]
      rw [hstep]
      have hfc : 1 ≤ s.fetchCount :=
        h.donePos (.fetched b) hmem (by simp)
      have hcnt := countP_set_eq s.pcs i (SFPC.fetched b) (SFPC.done b)
        (fun pc => decide (pc = SFPC.start)) hg
      simp only [reduceCtorEq, decide_False, if_false] at hcnt
      constructor
      · simp [h.len]
      · exact Or.inr (by rw [hbv])
      · intro pc' hmem'
        rcases List.mem_or_eq_of_mem_set hmem' with h' | h'
        · exact h.pcsOk pc' h'
        · subst h'
          exact hbv
      · have hb := h.countBound
        dsimp only
        unfold countStart at hb ⊢
        omega
      · intro _
        exact hfc
      · intro pc' hmem' hne
        exact hfc
    | done b =>
      have hstep : sfStep fetchVal s i = s := by
        unfold sfStep
        rw [hg]
      rw [hstep]
      exact h

/-- The invariant holds after any schedule. -/
theorem sfRun_inv (fetchVal : Bytes) (n : ℕ) (s : SFState) (sched : List ℕ)
    (h : SFInv fetchVal n s) : SFInv fetchVal n (sfRun fetchVal s sched) := by
  induction sched generalizing s with
  | nil => exact h
  | cons i rest ih =>
    exact ih (sfStep fetchVal s i) (sfStep_inv fetchVal n s i h)

/-- Counterexample to C1 as stated: with two concurrent requests for the
same uncached fingerprint, the interleaving in which both requests read
the cache (miss) before either publishes its result invokes `fetch`
twice — `serveTile` has no per-fingerprint pending map or lock, so the
"at most once" half of the single-flight contract fails.  (Both requests
still complete with the same bytes.) -/
theorem single_flight_counterexample :
    (sfRun [1] (sfInit 2) [0, 1, 0, 1]).fetchCount = 2 ∧
    ¬ (sfRun [1] (sfInit 2) [0, 1, 0, 1]).fetchCount ≤ 1 ∧
    (sfRun [1] (sfInit 2) [0, 1, 0, 1]).pcs = [SFPC.done [1], SFPC.done [1]] := by
  refine ⟨by decide, by decide, by decide⟩

/-- Claim C1 (amended): for `n ≥ 1` concurrent requests for the same
uncached fingerprint, under every interleaving in which all requests
complete, `fetch` is invoked at least once and at most `n` times (once per
request that observed a miss — there is no at-most-once deduplication),
and all requests return the same bytes, namely the deterministic fetch
result for that fingerprint. -/
theorem single_flight_amended (fetchVal : Bytes) (n : ℕ) (sched : List ℕ)
    (hn : 0 < n)
    (hdone : ∀ pc ∈ (sfRun fetchVal (sfInit n) sched).pcs, ∃ b, pc = SFPC.done b) :
    1 ≤ (sfRun fetchVal (sfInit n) sched).fetchCount ∧
    (sfRun fetchVal (sfInit n) sched).fetchCount ≤ n ∧
    ∀ pc ∈ (sfRun fetchVal (sfInit n) sched).pcs, pc = SFPC.done fetchVal := by
  have hinv := sfRun_inv fetchVal n (sfInit n) sched (sfInv_init fetchVal n)
  have hall : ∀ pc ∈ (sfRun fetchVal (sfInit n) sched).pcs,
      pc = SFPC.done fetchVal := by
    intro pc hmem
    rcases hdone pc hmem with ⟨b, rfl⟩
    have := hinv.pcsOk (SFPC.done b) hmem
    rw [show b = fetchVal from this]
  refine ⟨?_, ?_, hall⟩
  · have hlen : (sfRun fetchVal (sfInit n) sched).pcs ≠ [] := by
      intro hnil
      have hl := hinv.len
      rw [hnil] at hl
      simp at hl
      omega
    rcases List.exists_mem_of_ne_nil _ hlen with ⟨pc, hmem⟩
    have hpc := hall pc hmem
    exact hinv.donePos pc hmem (by rw [hpc]; simp)
  · have hb := hinv.countBound
    omega

/-- Witness for C1 (amended): two requests, a serial schedule, all
complete. -/
theorem single_flight_amended_witness :
    (0 < 2 ∧
      ∀ pc ∈ (sfRun [1] (sfInit 2) [0, 0, 1, 1]).pcs, ∃ b, pc = SFPC.done b) ∧
    1 ≤ (sfRun [1] (sfInit 2) [0, 0, 1, 1]).fetchCount ∧
    (sfRun [1] (sfInit 2) [0, 0, 1, 1]).fetchCount ≤ 2 ∧
    ∀ pc ∈ (sfRun [1] (sfInit 2) [0, 0, 1, 1]).pcs, pc = SFPC.done [1] := by
  have hpcs : (sfRun [1] (sfInit 2) [0, 0, 1, 1]).pcs =
      [SFPC.done [1], SFPC.done [1]] := by decide
  have hdone : ∀ pc ∈ (sfRun [1] (sfInit 2) [0, 0, 1, 1]).pcs,
      ∃ b, pc = SFPC.done b := by
    intro pc hmem
    rw [hpcs] at hmem
    simp only [List.mem_cons, List.not_mem_nil, or_false] at hmem
    rcases hmem with rfl | rfl
    · exact ⟨[1], rfl⟩
    · exact ⟨[1], rfl⟩
  exact ⟨⟨by decide, hdone⟩,
    single_flight_amended [1] 2 [0, 0, 1, 1] (by decide) hdone⟩
